import Mathlib

/-!
Verification of the coopurl URL-shortener library (coopgo/coopurl, coopurl.go).

The development shallowly embeds the library.  External collaborators are
modelled as follows:
- Go's net/url (url.Parse, URL.String): embedded below following the control
  flow of the Go standard library source, with percent-escaping modelled as
  the identity (inputs are assumed not to need escaping); fields the library
  never exercises behave as in Go.
- the badger key-value store: an association list from keys to entries with an
  optional absolute expiry; a transactional Set prepends, Get reads the most
  recent binding and treats an entry whose expiry has passed as absent, as
  badger reports ErrKeyNotFound for both missing and expired keys.
- crypto/sha256: an abstract digest function `String → List Nat` constrained
  (where a claim needs it) to return 32 bytes, each < 256; `fmt.Sprintf "%x"`
  of the digest is embedded concretely as `hexEncode`.
- wall-clock time: passed explicitly, as an `Int` instant `now` for store
  expiries and as the string rendering `nowStr` of `time.Now()` used by
  `generateId`.
-/

namespace Coopurl

/-- ASCII letter test, as in net/url getScheme. -/
def isAlphaChar (c : Char) : Bool :=
  (decide ('a' ≤ c) && decide (c ≤ 'z')) || (decide ('A' ≤ c) && decide (c ≤ 'Z'))

/-- ASCII digit test. -/
def isDigitChar (c : Char) : Bool :=
  decide ('0' ≤ c) && decide (c ≤ '9')

/-- Cut a character list at the first occurrence of `c` (strings.Cut with a
one-character separator): `some (before, after)` when found, `none` otherwise. -/
def cutList (c : Char) : List Char → Option (List Char × List Char)
  | [] => none
  | x :: xs =>
    if x = c then some ([], xs)
    else
      match cutList c xs with
      | some (l1, l2) => some (x :: l1, l2)
      | none => none

/-- Index of the last occurrence of `c` (strings.LastIndex with a
one-character separator), counting from `i` for the head. -/
def lastIndexOfCharAux (c : Char) : List Char → Nat → Option Nat
  | [], _ => none
  | x :: xs, i =>
    match lastIndexOfCharAux c xs (i + 1) with
    | some j => some j
    | none => if x = c then some i else none

/-- Index of the last occurrence of `c` in `l`, if any. -/
def lastIndexOfChar (l : List Char) (c : Char) : Option Nat :=
  lastIndexOfCharAux c l 0

/-- First segment of a path: everything before the first slash
(`strings.Cut(path, "/")`'s first component). -/
def firstSegment (l : List Char) : List Char :=
  match cutList '/' l with
  | some (l1, _) => l1
  | none => l

/-- ASCII lowercase of a string (net/url lowers the scheme; schemes are
ASCII-only by construction of getScheme). -/
def toLowerStr (s : String) : String :=
  String.mk (s.data.map Char.toLower)

/-- Control-byte test of net/url (stringContainsCTLByte). -/
def stringContainsCTLByte (s : String) : Bool :=
  s.data.any fun c => decide (c.toNat < 32) || decide (c.toNat = 127)

/-- Lowercase hexadecimal digit for a value < 16, as produced by Go's
`fmt "%x"` formatting. -/
def hexDigit (n : Nat) : Char :=
  if n < 10 then Char.ofNat (48 + n) else Char.ofNat (87 + n)

/-- Two lowercase hex characters per byte, in order (Go `fmt "%x"` of a byte
array). -/
def hexBytesAux : List Nat → List Char
  | [] => []
  | b :: bs => hexDigit (b / 16) :: hexDigit (b % 16) :: hexBytesAux bs

/-- Rendering of a byte list as a lowercase hexadecimal string. -/
def hexEncode (bs : List Nat) : String :=
  String.mk (hexBytesAux bs)

/-- Lowercase hexadecimal digit predicate. -/
def isLowerHexDigit (c : Char) : Bool :=
  (decide ('0' ≤ c) && decide (c ≤ '9')) || (decide ('a' ≤ c) && decide (c ≤ 'f'))

/-- Model of net/url's URL struct, restricted to the fields this library can
reach (User is the raw userinfo string). -/
structure URL where
  Scheme : String := ""
  Opaque : String := ""
  User : Option String := none
  Host : String := ""
  Path : String := ""
  OmitHost : Bool := false
  ForceQuery : Bool := false
  RawQuery : String := ""
  Fragment : String := ""
deriving DecidableEq

/-- Model of net/url validOptionalPort. -/
def validOptionalPort (p : List Char) : Bool :=
  match p with
  | [] => true
  | c :: rest => c = ':' && rest.all isDigitChar

/-- Model of net/url parseHost: bracketed hosts need a closing bracket, and a
trailing colon-port must be digits; unescaping is the identity here. -/
def parseHost (host : String) : Except String String :=
  if host.data.head? = some '[' then
    match lastIndexOfChar host.data ']' with
    | none => Except.error "missing close bracket in host"
    | some i =>
      if validOptionalPort (host.data.drop (i + 1)) then Except.ok host
      else Except.error "invalid port after host"
  else
    match lastIndexOfChar host.data ':' with
    | none => Except.ok host
    | some i =>
      if validOptionalPort (host.data.drop i) then Except.ok host
      else Except.error "invalid port after host"

/-- Characters net/url validUserinfo accepts. -/
def validUserinfoChar (c : Char) : Bool :=
  isAlphaChar c || isDigitChar c ||
    ['-', '.', '_', ':', '~', '!', '$', '&', Char.ofNat 39, '(', ')', '*',
      '+', ',', ';', '=', '%', '@'].contains c

/-- Model of net/url validUserinfo. -/
def validUserinfo (s : String) : Bool :=
  s.data.all validUserinfoChar

/-- Model of net/url parseAuthority: split userinfo at the last `@`, parse the
host, validate the userinfo; unescaping is the identity here. -/
def parseAuthority (authority : String) : Except String (Option String × String) :=
  match lastIndexOfChar authority.data '@' with
  | none =>
    match parseHost authority with
    | Except.error e => Except.error e
    | Except.ok host => Except.ok (none, host)
  | some i =>
    match parseHost (String.mk (authority.data.drop (i + 1))) with
    | Except.error e => Except.error e
    | Except.ok host =>
      let userinfo := String.mk (authority.data.take i)
      if validUserinfo userinfo then Except.ok (some userinfo, host)
      else Except.error "net/url: invalid userinfo"

/-- Model of net/url getScheme: scan for a scheme followed by a colon; `acc`
holds the characters scanned so far (`acc = []` is Go's `i == 0`). -/
def getSchemeAux (rawURL : String) (acc : List Char) : List Char → Except String (String × String)
  | [] => Except.ok ("", rawURL)
  | c :: rest =>
    if isAlphaChar c then getSchemeAux rawURL (acc ++ [c]) rest
    else if isDigitChar c || c = '+' || c = '-' || c = '.' then
      if acc = [] then Except.ok ("", rawURL)
      else getSchemeAux rawURL (acc ++ [c]) rest
    else if c = ':' then
      if acc = [] then Except.error "missing protocol scheme"
      else Except.ok (String.mk acc, String.mk rest)
    else Except.ok ("", rawURL)

/-- Model of net/url getScheme on a string. -/
def getScheme (rawURL : String) : Except String (String × String) :=
  getSchemeAux rawURL [] rawURL.data

/-- Authority-and-path phase of net/url parse: after scheme and query have
been split off, consume a `//authority` when present, or mark OmitHost for a
rooted path under a scheme, and set the path (escaping is the identity). -/
def urlSetHostPath (scheme : String) (rest : String) (rawQuery : String)
    (forceQuery : Bool) : Except String URL :=
  if ((scheme != "") || !(['/', '/', '/'].isPrefixOf rest.data)) &&
      ['/', '/'].isPrefixOf rest.data then
    let afterSlashes := rest.data.drop 2
    let cut := cutList '/' afterSlashes
    let authority := match cut with
      | some (l1, _) => l1
      | none => afterSlashes
    let rest2 := match cut with
      | some (_, l2) => '/' :: l2
      | none => []
    match parseAuthority (String.mk authority) with
    | Except.error e => Except.error e
    | Except.ok (user, host) =>
      Except.ok { Scheme := scheme, User := user, Host := host,
                  Path := String.mk rest2, RawQuery := rawQuery,
                  ForceQuery := forceQuery }
  else if (scheme != "") && ['/'].isPrefixOf rest.data then
    Except.ok { Scheme := scheme, OmitHost := true, Path := rest,
                RawQuery := rawQuery, ForceQuery := forceQuery }
  else
    Except.ok { Scheme := scheme, Path := rest, RawQuery := rawQuery,
                ForceQuery := forceQuery }

/-- Model of net/url parse with viaRequest = false (what url.Parse uses):
control-byte check, the `*` special case, scheme extraction and lowering,
query split (with the ForceQuery corner), the opaque case, the
colon-in-first-segment error, then authority and path. -/
def urlParseMain (rawURL : String) : Except String URL :=
  if stringContainsCTLByte rawURL then
    Except.error "net/url: invalid control character in URL"
  else if rawURL = "*" then Except.ok { Path := "*" }
  else
    match getScheme rawURL with
    | Except.error e => Except.error e
    | Except.ok (scheme0, rest0) =>
      let scheme := toLowerStr scheme0
      let qsplit : String × String × Bool :=
        if rest0.data.getLast? = some '?' && (cutList '?' rest0.data.dropLast).isNone then
          (String.mk rest0.data.dropLast, "", true)
        else
          match cutList '?' rest0.data with
          | some (l1, l2) => (String.mk l1, String.mk l2, false)
          | none => (rest0, "", false)
      let rest := qsplit.1
      let rawQuery := qsplit.2.1
      let forceQuery := qsplit.2.2
      if !(['/'].isPrefixOf rest.data) then
        if scheme != "" then
          Except.ok { Scheme := scheme, Opaque := rest, RawQuery := rawQuery,
                      ForceQuery := forceQuery }
        else if (firstSegment rest.data).contains ':' then
          Except.error "first path segment in URL cannot contain colon"
        else urlSetHostPath scheme rest rawQuery forceQuery
      else urlSetHostPath scheme rest rawQuery forceQuery

/-- Model of url.Parse: split off the fragment at the first `#`, parse the
rest, and record a non-empty fragment (unescaping is the identity). -/
def urlParse (rawURL : String) : Except String URL :=
  match cutList '#' rawURL.data with
  | none => urlParseMain rawURL
  | some (before, frag) =>
    match urlParseMain (String.mk before) with
    | Except.error e => Except.error e
    | Except.ok u =>
      if frag = [] then Except.ok u
      else Except.ok { u with Fragment := String.mk frag }

/-- Query suffix of URL.String: a `?` plus the raw query when forced or
non-empty. -/
def querySuffix (u : URL) : String :=
  if u.ForceQuery || (u.RawQuery != "") then "?" ++ u.RawQuery else ""

/-- Fragment suffix of URL.String. -/
def fragSuffix (u : URL) : String :=
  if u.Fragment != "" then "#" ++ u.Fragment else ""

/-- Model of net/url URL.String, with escaping as the identity: scheme colon,
then either the opaque part or authority `//user@host` plus path (with the
rooting slash and the `./` disambiguation Go inserts), then query and
fragment. -/
def URL.toString (u : URL) : String :=
  let schemePart := if u.Scheme != "" then u.Scheme ++ ":" else ""
  if u.Opaque != "" then
    schemePart ++ u.Opaque ++ querySuffix u ++ fragSuffix u
  else
    let authPart :=
      if (u.Scheme != "") || (u.Host != "") || u.User.isSome then
        if u.OmitHost && (u.Host == "") && u.User.isNone then ""
        else
          (if (u.Host != "") || (u.Path != "") || u.User.isSome then "//" else "")
            ++ (match u.User with
                | some ui => ui ++ "@"
                | none => "")
            ++ u.Host
      else ""
    let slashPart :=
      if (u.Path != "") && !(['/'].isPrefixOf u.Path.data) && (u.Host != "") then "/"
      else ""
    let pre := schemePart ++ authPart ++ slashPart
    let dotSlash :=
      if (pre == "") && (firstSegment u.Path.data).contains ':' then "./" else ""
    pre ++ dotSlash ++ u.Path ++ querySuffix u ++ fragSuffix u

/-- Decidable equality for Except, needed to evaluate the fallible operations
on closed inputs. -/
instance {ε α : Type} [DecidableEq ε] [DecidableEq α] : DecidableEq (Except ε α) := fun a b =>
  match a, b with
  | Except.error e1, Except.error e2 =>
    if h : e1 = e2 then isTrue (by rw [h])
    else isFalse (by intro hc; injection hc; contradiction)
  | Except.error _, Except.ok _ => isFalse (fun hc => Except.noConfusion hc)
  | Except.ok _, Except.error _ => isFalse (fun hc => Except.noConfusion hc)
  | Except.ok a1, Except.ok a2 =>
    if h : a1 = a2 then isTrue (by rw [h])
    else isFalse (by intro hc; injection hc; contradiction)

/-- Store entry: the value written by Post, with the optional absolute expiry
badger attaches when an entry is written with a TTL. -/
structure Entry where
  value : String
  expiresAt : Option Int := none
deriving DecidableEq

/-- The badger store, modelled as an association list; the head is the most
recent binding, so prepending models the overwrite of txn.Set. -/
abbrev Store := List (String × Entry)

/-- Transactional write of one key (txn.Set / txn.SetEntry). -/
def storeSet (st : Store) (k : String) (e : Entry) : Store :=
  (k, e) :: st

/-- Most recent binding of a key, expired or not. -/
def storeLookup (st : Store) (k : String) : Option Entry :=
  match st with
  | [] => none
  | (k', e) :: rest => if k' = k then some e else storeLookup rest k

/-- Read of one key at instant `now` (txn.Get + ValueCopy): a key that is
absent, or whose entry's expiry has passed, is not found. -/
def storeGet (st : Store) (now : Int) (k : String) : Option String :=
  match storeLookup st k with
  | none => none
  | some e =>
    match e.expiresAt with
    | none => some e.value
    | some exp => if now < exp then some e.value else none

/-- Errors the embedded operations surface: a URL parse error, badger's
key-not-found, and the out-of-range panic Go string slicing would raise. -/
inductive CoopErr where
  | parseErr (msg : String)
  | keyNotFound
  | outOfRange
deriving DecidableEq

/-- DefaultLength of coopurl.go. -/
def DefaultLength : Int := 8

/-- Handler configuration (coopurl.go lines 23-32); the db handle, path,
mutex and logger do not affect the embedded operations and are omitted. -/
structure Handler where
  TTL : Int := 0
  Length : Int := 0
  Scheme : String := ""
deriving DecidableEq

/-- Per-request options record (coopurl.go lines 259-262). -/
structure req where
  ttl : Int := 0
  length : Int := 0
deriving DecidableEq

/-- ReqOptions of coopurl.go. -/
def ReqOptions : Type := req → req

/-- WithTTL of coopurl.go. -/
def WithTTL (ttl : Int) : ReqOptions :=
  fun r => { r with ttl := ttl }

/-- WithLength of coopurl.go. -/
def WithLength (length : Int) : ReqOptions :=
  fun r => { r with length := length }

/-- getLength of coopurl.go (lines 95-103): per-call positive length, else
positive instance default, else DefaultLength. -/
def Handler.getLength (h : Handler) (r : req) : Int :=
  if r.length > 0 then r.length
  else if h.Length > 0 then h.Length
  else DefaultLength

/-- Go string slicing s[:n]: in bounds it is the prefix of n bytes, out of
bounds it panics (modelled as none).  The sliced strings here are hex
renderings, so bytes and characters coincide. -/
def goSlice (s : String) (n : Int) : Option String :=
  if 0 ≤ n ∧ n ≤ (s.data.length : Int) then some (String.mk (s.data.take n.toNat))
  else none

/-- generateId of coopurl.go (lines 265-272): hash the URL joined to the
rendered current time by the separator "-", hex-render the digest, and return
it whole when n ≥ its length, else its n-byte prefix. -/
def generateId (digest : String → List Nat) (nowStr : String) (url : String)
    (n : Int) : Option String :=
  let s := url ++ "-" ++ nowStr
  let sha := hexEncode (digest s)
  if (sha.data.length : Int) ≤ n then some sha
  else goSlice sha n

/-- Scheme defaulting step of post (coopurl.go lines 207-210). -/
def setHTTPIfNoScheme (u : URL) : URL :=
  if u.Scheme = "" then { u with Scheme := "http" } else u

/-- post of coopurl.go (lines 198-243): parse, default the scheme, fold the
request options, generate the id from the re-rendered URL and the effective
length, resolve the effective TTL (per-call, else instance), and write the
entry, with an expiry exactly when the effective TTL is non-zero.  The store
is returned unchanged on failure. -/
def Handler.post (h : Handler) (digest : String → List Nat) (now : Int)
    (nowStr : String) (st : Store) (s : String) (opts : List ReqOptions) :
    Except CoopErr String × Store :=
  match urlParse s with
  | Except.error e => (Except.error (CoopErr.parseErr e), st)
  | Except.ok u0 =>
    let u := setHTTPIfNoScheme u0
    let r := opts.foldl (fun acc o => o acc) {}
    match generateId digest nowStr u.toString (h.getLength r) with
    | none => (Except.error CoopErr.outOfRange, st)
    | some id =>
      let ttl := if r.ttl = 0 then h.TTL else r.ttl
      if ttl ≠ 0 then
        (Except.ok id, storeSet st id { value := u.toString, expiresAt := some (now + ttl) })
      else
        (Except.ok id, storeSet st id { value := u.toString, expiresAt := none })

/-- Post of coopurl.go (lines 191-196).  The source forwards only the url:
`return h.post(url)`, so the variadic opts are dropped and post always runs
with an empty option list. -/
def Handler.Post (h : Handler) (digest : String → List Nat) (now : Int)
    (nowStr : String) (st : Store) (url : String) (opts : List ReqOptions) :
    Except CoopErr String × Store :=
  h.post digest now nowStr st url []

/-- get of coopurl.go (lines 164-188): a read-only transaction returning the
stored value, or badger's key-not-found error. -/
def Handler.get (h : Handler) (st : Store) (now : Int) (id : String) :
    Except CoopErr String :=
  match storeGet st now id with
  | none => Except.error CoopErr.keyNotFound
  | some v => Except.ok v

/-- Get of coopurl.go (lines 157-162); init is modelled as succeeding. -/
def Handler.Get (h : Handler) (st : Store) (now : Int) (id : String) :
    Except CoopErr String :=
  h.get st now id

/-- Go path.Split: the text after the last slash is the file part. -/
def pathSplit (p : String) : String × String :=
  match lastIndexOfChar p.data '/' with
  | none => ("", p)
  | some i => (String.mk (p.data.take (i + 1)), String.mk (p.data.drop (i + 1)))

/-- The observable part of an HTTP response: status code and Location
header. -/
structure HTTPResponse where
  status : Int
  location : Option String
deriving DecidableEq

/-- redirect of coopurl.go (lines 147-154): re-parse the stored URL and issue
a 301 with the re-rendered URL as Location (http.Redirect leaves an absolute
URL as given). -/
def redirect (s : String) : Except String HTTPResponse :=
  match urlParse s with
  | Except.error e => Except.error e
  | Except.ok u => Except.ok { status := 301, location := some u.toString }

/-- ServeHTTP of coopurl.go (lines 124-145): the id is the file part of the
request path; any Get or redirect failure answers 500; init is modelled as
succeeding. -/
def Handler.ServeHTTP (h : Handler) (st : Store) (now : Int) (reqPath : String) :
    HTTPResponse :=
  match h.Get st now (pathSplit reqPath).2 with
  | Except.error _ => { status := 500, location := none }
  | Except.ok u =>
    match redirect u with
    | Except.error _ => { status := 500, location := none }
    | Except.ok resp => resp

/-- One client-visible operation of the library, tagged with the instants at
which it runs. -/
inductive Op where
  | opPost (now : Int) (nowStr : String) (url : String) (opts : List ReqOptions)
  | opGet (now : Int) (id : String)

/-- Run a sequence of Post and Get calls against one handler, collecting each
call's result and threading the store. -/
def runOps (h : Handler) (digest : String → List Nat) :
    List Op → Store → List (Except CoopErr String) × Store
  | [], st => ([], st)
  | Op.opPost now nowStr u opts :: rest, st =>
    let pr := h.Post digest now nowStr st u opts
    let tail := runOps h digest rest pr.2
    (pr.1 :: tail.1, tail.2)
  | Op.opGet now id :: rest, st =>
    let tail := runOps h digest rest st
    (h.Get st now id :: tail.1, tail.2)

/-- Constraint a digest function inherits from crypto/sha256: 32 bytes, each
below 256. -/
def IsSha256Model (digest : String → List Nat) : Prop :=
  ∀ s, (digest s).length = 32 ∧ ∀ b ∈ digest s, b < 256

/-- A concrete digest satisfying IsSha256Model, used to evaluate the
operations on closed inputs. -/
def zeroDigest : String → List Nat :=
  fun _ => List.replicate 32 0

/-- A handler with every configuration field at its zero value. -/
def hDefault : Handler := {}

/-! ## Helper lemmas -/

/-- The effective length is always strictly positive: the per-call and
instance defaults are only used when positive, and DefaultLength is 8. -/
theorem getLength_pos (h : Handler) (r : req) : 0 < h.getLength r := by
  unfold Handler.getLength
  split
  · assumption
  · split
    · assumption
    · decide

/-- With a positive requested length the digest slicing is in bounds, so
generateId returns a value. -/
theorem generateId_eq_some (digest : String → List Nat) (ts u : String) (n : Int)
    (hn : 0 < n) : ∃ id, generateId digest ts u n = some id := by
  simp only [generateId]
  split
  · exact ⟨_, rfl⟩
  · rename_i hle
    exact ⟨_, by unfold goSlice; rw [if_pos ⟨hn.le, (lt_of_not_le hle).le⟩]⟩

/-- The hex rendering has two characters per byte. -/
theorem hexBytesAux_length (bs : List Nat) : (hexBytesAux bs).length = 2 * bs.length := by
  induction bs with
  | nil => rfl
  | cons b bs ih => simp only [hexBytesAux, List.length_cons, ih]; omega

/-- Every hex digit of a value below 16 is a lowercase hex character. -/
theorem hexDigit_isLowerHex : ∀ n < 16, isLowerHexDigit (hexDigit n) = true := by decide

/-- The hex rendering of a byte list consists of lowercase hex characters. -/
theorem hexBytesAux_chars (bs : List Nat) (hb : ∀ b ∈ bs, b < 256) :
    ∀ c ∈ hexBytesAux bs, isLowerHexDigit c = true := by
  induction bs with
  | nil => intro c hc; cases hc
  | cons b bs ih =>
    intro c hc
    have hblt : b < 256 := hb b (List.mem_cons_self b bs)
    simp only [hexBytesAux, List.mem_cons] at hc
    rcases hc with rfl | rfl | hc
    · exact hexDigit_isLowerHex _ (by omega)
    · exact hexDigit_isLowerHex _ (by omega)
    · exact ih (fun x hx => hb x (List.mem_cons_of_mem b hx)) c hc

/-- Reading back the key just written. -/
theorem storeGet_set_head (st : Store) (k : String) (e : Entry) (now : Int) :
    storeGet (storeSet st k e) now k =
      match e.expiresAt with
      | none => some e.value
      | some exp => if now < exp then some e.value else none := by
  simp [storeGet, storeSet, storeLookup]

/-- Shape of a successful post on an empty option list: the id comes from
generateId on the re-rendered normalized URL at the effective length, and the
entry's expiry is present exactly when the instance TTL is non-zero. -/
theorem post_ok (h : Handler) (digest : String → List Nat) (now : Int)
    (nowStr : String) (st : Store) (s : String) (gu : URL)
    (hp : urlParse s = Except.ok gu) :
    ∃ id, generateId digest nowStr (setHTTPIfNoScheme gu).toString (h.getLength {}) = some id ∧
      h.post digest now nowStr st s [] =
        (Except.ok id, storeSet st id
          { value := (setHTTPIfNoScheme gu).toString,
            expiresAt := if h.TTL = 0 then none else some (now + h.TTL) }) := by
  obtain ⟨id, hid⟩ := generateId_eq_some digest nowStr (setHTTPIfNoScheme gu).toString
    (h.getLength {}) (getLength_pos h {})
  refine ⟨id, hid, ?_⟩
  simp only [Handler.post, hp, List.foldl]
  rw [hid]
  by_cases hT : h.TTL = 0
  · simp [hT]
  · simp [hT]

/-- A successful parse always yields a successful post, whatever the
options. -/
theorem post_fst_ok (h : Handler) (digest : String → List Nat) (now : Int)
    (nowStr : String) (st : Store) (s : String) (opts : List ReqOptions) (gu : URL)
    (hp : urlParse s = Except.ok gu) :
    ∃ id, (h.post digest now nowStr st s opts).1 = Except.ok id := by
  obtain ⟨id, hid⟩ := generateId_eq_some digest nowStr (setHTTPIfNoScheme gu).toString
    (h.getLength (opts.foldl (fun acc o => o acc) {})) (getLength_pos h _)
  refine ⟨id, ?_⟩
  simp only [Handler.post, hp]
  simp only [hid]
  split <;> first
  | rfl
  | (split <;> rfl)

/-- The all-zero digest satisfies the sha256 shape constraint. -/
theorem zeroDigest_isSha256 : IsSha256Model zeroDigest := by
  intro s
  refine ⟨?_, ?_⟩
  · show (List.replicate 32 (0 : Nat)).length = 32
    decide
  · show ∀ b ∈ List.replicate 32 (0 : Nat), b < 256
    decide

/-! ## Claims -/

/-- C1: the claim says Post(u, length=n) returns an id of exactly n
characters for n in [1,64], the per-call override taking precedence.  The
source drops the variadic opts when Post forwards to post (line 195), so the
per-call length 10 is ignored and the id has the built-in default of 8
characters. -/
theorem post_withLength_ignored_eval :
    (hDefault.Post zeroDigest 0 "t0" [] "http://example.com" [WithLength 10]).1 =
      Except.ok "00000000" ∧
    ("00000000" : String).data.length = 8 := by decide

/-- C2: the claim says a nonzero per-call TTL d takes precedence and forces
an expiry on the written entry.  The source drops the variadic opts when Post
forwards to post (line 195), so WithTTL 5 is ignored, the effective TTL is
the instance default 0, and the entry is written without expiry. -/
theorem post_withTTL_ignored_eval :
    hDefault.Post zeroDigest 0 "t0" [] "http://example.com" [WithTTL 5] =
      (Except.ok "00000000",
        [("00000000", { value := "http://example.com", expiresAt := none })]) := by decide

/-- C6: Get on an id that is absent from the store, or whose entry's expiry
has passed, fails with the key-not-found error and returns no URL. -/
theorem get_absent_or_expired_not_found (h : Handler) (st : Store) (now : Int)
    (id : String)
    (habs : storeLookup st id = none ∨
      ∃ v t, storeLookup st id = some { value := v, expiresAt := some t } ∧ t ≤ now) :
    h.Get st now id = Except.error CoopErr.keyNotFound := by
  rcases habs with h1 | ⟨v, t, h1, h2⟩
  · simp [Handler.Get, Handler.get, storeGet, h1]
  · simp only [Handler.Get, Handler.get, storeGet, h1]
    rw [if_neg (not_lt.mpr h2)]

/-- Witness for C6: a key never written, and a key written with an expiry
that has passed. -/
theorem get_absent_or_expired_not_found_witness :
    hDefault.Get [] 0 "zzz" = Except.error CoopErr.keyNotFound ∧
    hDefault.Get [("a", { value := "v", expiresAt := some 5 })] 10 "a" =
      Except.error CoopErr.keyNotFound :=
  ⟨get_absent_or_expired_not_found hDefault [] 0 "zzz" (Or.inl rfl),
    get_absent_or_expired_not_found hDefault
      [("a", { value := "v", expiresAt := some 5 })] 10 "a"
      (Or.inr ⟨"v", 5, rfl, by decide⟩)⟩

/-- C10: when the input string fails to parse, Post returns the parse error
and the store is returned unchanged: the write is never attempted. -/
theorem post_parse_error_leaves_store (h : Handler) (digest : String → List Nat)
    (now : Int) (nowStr : String) (st : Store) (s : String) (opts : List ReqOptions)
    (e : String) (hp : urlParse s = Except.error e) :
    h.Post digest now nowStr st s opts = (Except.error (CoopErr.parseErr e), st) := by
  rw [Handler.Post]
  simp [Handler.post, hp]

/-- Witness for C10: a string with no protocol scheme before its colon fails
to parse and leaves a non-empty store untouched. -/
theorem post_parse_error_leaves_store_witness :
    hDefault.Post zeroDigest 0 "t0" [("k", { value := "v", expiresAt := none })] ":foo" [] =
      (Except.error (CoopErr.parseErr "missing protocol scheme"),
        [("k", { value := "v", expiresAt := none })]) :=
  post_parse_error_leaves_store hDefault zeroDigest 0 "t0"
    [("k", { value := "v", expiresAt := none })] ":foo" [] "missing protocol scheme"
    (by decide)

/-- C3 counterexample: the claim says Get(Post(u)) returns u itself whenever
u already has a scheme.  For u = "HTTP://example.com" the parser lowercases
the scheme, so the stored and returned value is "http://example.com", which
is not u. -/
theorem get_after_post_not_textual_identity :
    (hDefault.Post zeroDigest 0 "t0" [] "HTTP://example.com" []).1 = Except.ok "00000000" ∧
    hDefault.Get (hDefault.Post zeroDigest 0 "t0" [] "HTTP://example.com" []).2 0 "00000000" =
      Except.ok "http://example.com" ∧
    "http://example.com" ≠ "HTTP://example.com" := by decide

/-- C3 (amended): with no intervening expiry or overwrite, Get(Post(u))
returns the string rendering of the parsed u with the scheme set to http when
it was absent — the scheme-normalized re-rendering of u, which need not be
textually u. -/
theorem get_after_post_returns_normalized_rendering (h : Handler)
    (digest : String → List Nat) (now now' : Int) (nowStr : String) (st : Store)
    (u : String) (gu : URL) (id : String) (st' : Store)
    (hp : urlParse u = Except.ok gu)
    (hfresh : h.TTL = 0 ∨ now' < now + h.TTL)
    (hpost : h.Post digest now nowStr st u [] = (Except.ok id, st')) :
    h.Get st' now' id = Except.ok (setHTTPIfNoScheme gu).toString := by
  obtain ⟨id0, hid0, heq⟩ := post_ok h digest now nowStr st u gu hp
  rw [Handler.Post, heq] at hpost
  have hfst := congrArg Prod.fst hpost
  have hsnd := congrArg Prod.snd hpost
  simp only at hfst hsnd
  injection hfst with hids
  subst hids
  subst hsnd
  rw [Handler.Get, Handler.get, storeGet_set_head]
  by_cases hT : h.TTL = 0
  · simp [hT]
  · simp only [hT, if_neg hT, ite_false]
    rw [if_pos (hfresh.resolve_left hT)]

/-- Witness for C3: posting "http://example.com" and reading the id back
returns "http://example.com". -/
theorem get_after_post_returns_normalized_rendering_witness :
    hDefault.Get [("00000000", { value := "http://example.com", expiresAt := none })] 0
      "00000000" = Except.ok "http://example.com" := by
  have hthm := get_after_post_returns_normalized_rendering hDefault zeroDigest 0 0 "t0" []
    "http://example.com" { Scheme := "http", Host := "example.com" } "00000000"
    [("00000000", { value := "http://example.com", expiresAt := none })]
    (by decide) (Or.inl rfl) (by decide)
  rw [hthm]
  decide

/-- C4: generateId hashes the URL joined to the rendered timestamp by the
separator "-"; the hex rendering of the 32-byte digest has 64 lowercase hex
characters, and the result is that rendering whole when n ≥ 64, else its
first n characters. -/
theorem generateId_matches_sha_hex_truncation (digest : String → List Nat)
    (hd : IsSha256Model digest) (ts u : String) (n : Nat) :
    (hexEncode (digest (u ++ "-" ++ ts))).data.length = 64 ∧
    (∀ c ∈ (hexEncode (digest (u ++ "-" ++ ts))).data, isLowerHexDigit c = true) ∧
    generateId digest ts u (n : Int) =
      some (if 64 ≤ n then hexEncode (digest (u ++ "-" ++ ts))
            else String.mk ((hexEncode (digest (u ++ "-" ++ ts))).data.take n)) := by
  have hlen : (digest (u ++ "-" ++ ts)).length = 32 := (hd (u ++ "-" ++ ts)).1
  have hb : ∀ b ∈ digest (u ++ "-" ++ ts), b < 256 := (hd (u ++ "-" ++ ts)).2
  have hdata : (hexEncode (digest (u ++ "-" ++ ts))).data =
      hexBytesAux (digest (u ++ "-" ++ ts)) := rfl
  have h64 : (hexEncode (digest (u ++ "-" ++ ts))).data.length = 64 := by
    rw [hdata, hexBytesAux_length, hlen]
  refine ⟨h64, ?_, ?_⟩
  · rw [hdata]
    exact hexBytesAux_chars _ hb
  · simp only [generateId]
    rw [h64]
    by_cases hge : 64 ≤ n
    · rw [if_pos (by exact_mod_cast hge), if_pos hge]
    · rw [if_neg (by exact_mod_cast hge), if_neg hge]
      unfold goSlice
      rw [h64, if_pos (by constructor <;> omega)]
      have htn : ((n : Int)).toNat = n := by omega
      rw [htn]

/-- Witness for C4: the all-zero digest renders as 64 zeros and a request of
length 8 returns its first 8 characters. -/
theorem generateId_matches_sha_hex_truncation_witness :
    generateId zeroDigest "t" "u" ((8 : Nat) : Int) = some "00000000" := by
  have hthm := (generateId_matches_sha_hex_truncation zeroDigest
    zeroDigest_isSha256 "t" "u" 8).2.2
  rw [hthm]
  decide

/-- C5: whenever the parse of the input yields an empty scheme, Post stores
the rendering of the URL with scheme http. -/
theorem post_defaults_missing_scheme (h : Handler) (digest : String → List Nat)
    (now : Int) (nowStr : String) (st : Store) (u : String) (gu : URL)
    (opts : List ReqOptions)
    (hp : urlParse u = Except.ok gu) (hs : gu.Scheme = "") :
    ∃ id e, h.Post digest now nowStr st u opts = (Except.ok id, storeSet st id e) ∧
      e.value = URL.toString { gu with Scheme := "http" } := by
  obtain ⟨id, hid, heq⟩ := post_ok h digest now nowStr st u gu hp
  refine ⟨id, { value := (setHTTPIfNoScheme gu).toString,
                expiresAt := if h.TTL = 0 then none else some (now + h.TTL) }, ?_, ?_⟩
  · rw [Handler.Post]
    exact heq
  · simp [setHTTPIfNoScheme, hs]

/-- Witness for C5: Post("example.com") stores "http://example.com". -/
theorem post_defaults_missing_scheme_witness :
    ∃ id e, hDefault.Post zeroDigest 0 "t0" [] "example.com" [] =
        (Except.ok id, storeSet [] id e) ∧ e.value = "http://example.com" := by
  obtain ⟨id, e, h1, h2⟩ := post_defaults_missing_scheme hDefault zeroDigest 0 "t0" []
    "example.com" { Path := "example.com" } [] (by decide) rfl
  refine ⟨id, e, h1, ?_⟩
  rw [h2]
  decide

/-- C7: a request whose path's final segment maps to "http://example.com"
in the store yields a 301 whose Location is http://example.com, and a request
whose final segment is not a stored key yields a 500. -/
theorem serveHTTP_redirects_or_500 (h : Handler) (st : Store) (now : Int)
    (id1 p1 id2 p2 : String)
    (h1 : storeGet st now id1 = some "http://example.com")
    (hp1 : (pathSplit p1).2 = id1)
    (h2 : storeGet st now id2 = none)
    (hp2 : (pathSplit p2).2 = id2) :
    h.ServeHTTP st now p1 = { status := 301, location := some "http://example.com" } ∧
    h.ServeHTTP st now p2 = { status := 500, location := none } := by
  constructor
  · simp only [Handler.ServeHTTP, hp1, Handler.Get, Handler.get, h1]
    rfl
  · simp only [Handler.ServeHTTP, hp2, Handler.Get, Handler.get, h2]

/-- Witness for C7: the mapping id1 → http://example.com redirects /r/id1
with a 301 and answers /r/unknown with a 500. -/
theorem serveHTTP_redirects_or_500_witness :
    hDefault.ServeHTTP [("id1", { value := "http://example.com", expiresAt := none })] 0
      "/r/id1" = { status := 301, location := some "http://example.com" } ∧
    hDefault.ServeHTTP [("id1", { value := "http://example.com", expiresAt := none })] 0
      "/r/unknown" = { status := 500, location := none } :=
  serveHTTP_redirects_or_500 hDefault
    [("id1", { value := "http://example.com", expiresAt := none })] 0
    "id1" "/r/id1" "unknown" "/r/unknown" (by decide) (by decide) (by decide) (by decide)

/-- C8: for every configuration and per-call options, the effective length is
strictly positive, generateId's slicing is therefore in bounds and returns a
value, and neither post nor Post can surface the out-of-range panic of the
digest slicing. -/
theorem effective_length_pos_and_slice_in_bounds (h : Handler) (r : req)
    (digest : String → List Nat) (now : Int) (nowStr u s : String) (st : Store)
    (opts : List ReqOptions) :
    0 < h.getLength r ∧
    (generateId digest nowStr u (h.getLength r)).isSome = true ∧
    (h.post digest now nowStr st s opts).1 ≠ Except.error CoopErr.outOfRange ∧
    (h.Post digest now nowStr st s opts).1 ≠ Except.error CoopErr.outOfRange := by
  have hno : (h.post digest now nowStr st s opts).1 ≠ Except.error CoopErr.outOfRange := by
    cases hpe : urlParse s with
    | error e =>
      simp [Handler.post, hpe]
    | ok gu =>
      obtain ⟨id, hfst⟩ := post_fst_ok h digest now nowStr st s opts gu hpe
      rw [hfst]
      exact fun hc => Except.noConfusion hc
  refine ⟨getLength_pos h r, ?_, hno, ?_⟩
  · obtain ⟨id, hid⟩ := generateId_eq_some digest nowStr u _ (getLength_pos h r)
    rw [hid]
    rfl
  · rw [Handler.Post]
    cases hpe : urlParse s with
    | error e =>
      simp [Handler.post, hpe]
    | ok gu =>
      obtain ⟨id, hfst⟩ := post_fst_ok h digest now nowStr st s [] gu hpe
      rw [hfst]
      exact fun hc => Except.noConfusion hc

/-- C9: the exported Scheme field never influences behavior: two handlers
differing only in Scheme produce identical results and identical final stores
on every sequence of Post and Get calls. -/
theorem scheme_field_never_influences_behavior (t l : Int) (s1 s2 : String)
    (digest : String → List Nat) (ops : List Op) (st : Store) :
    runOps { TTL := t, Length := l, Scheme := s1 } digest ops st =
      runOps { TTL := t, Length := l, Scheme := s2 } digest ops st := by
  induction ops generalizing st with
  | nil => rfl
  | cons op rest ih =>
    cases op with
    | opPost now nowStr u opts =>
      simp only [runOps]
      have hpost : Handler.Post { TTL := t, Length := l, Scheme := s1 } digest now nowStr st u opts =
          Handler.Post { TTL := t, Length := l, Scheme := s2 } digest now nowStr st u opts := rfl
      rw [hpost, ih]
    | opGet now id =>
      simp only [runOps]
      have hget : Handler.Get { TTL := t, Length := l, Scheme := s1 } st now id =
          Handler.Get { TTL := t, Length := l, Scheme := s2 } st now id := rfl
      rw [hget, ih]

end Coopurl
